import Mathlib

/-!
Verification of the pubsubmsgrestforwarder message delivery loop.

The Go program consumes Pub/Sub messages, transforms each into the Cloud Run
push-style JSON envelope, POSTs it to a configured URL, and acks or nacks the
message depending on the delivery outcome.  This file gives a shallow
embedding of the relevant functions of `src/main.go` (`transformMessage`,
`sendPOST`, `consumeMessages`) together with models of the Go standard
library behaviour they rely on (base64 standard encoding, `encoding/json`
marshaling of the tagged struct, `time.Time.Format(time.RFC3339)`).
-/

namespace Forwarder

/-! ### Base64 standard encoding (model of Go `encoding/base64.StdEncoding`) -/

/-- The standard base64 alphabet, as in RFC 4648 and Go `encoding/base64`. -/
def b64Alphabet : List Char :=
  "ABCDEFGHIJKLMNOPQRSTUVWXYZabcdefghijklmnopqrstuvwxyz0123456789+/".data

/-- The alphabet character for a 6-bit group. -/
def encChar (n : Nat) : Char := b64Alphabet.getD n 'A'

/-- Encode a byte list in groups of three bytes into four base64 characters,
padding with `=` exactly as Go standard encoding does. -/
def b64EncodeList : List Nat → List Char
  | [] => []
  | [a] => [encChar (a / 4), encChar (a % 4 * 16), '=', '=']
  | [a, b] => [encChar (a / 4), encChar (a % 4 * 16 + b / 16), encChar (b % 16 * 4), '=']
  | a :: b :: c :: rest =>
      encChar (a / 4) :: encChar (a % 4 * 16 + b / 16) ::
      encChar (b % 16 * 4 + c / 64) :: encChar (c % 64) :: b64EncodeList rest

/-- `base64.StdEncoding.EncodeToString` on a byte list. -/
def base64Encode (bytes : List Nat) : String := String.mk (b64EncodeList bytes)

/-- Inverse of `encChar`: the 6-bit value of an alphabet character. -/
def decChar (c : Char) : Option Nat :=
  let n := c.toNat
  if 65 ≤ n ∧ n ≤ 90 then some (n - 65)
  else if 97 ≤ n ∧ n ≤ 122 then some (n - 97 + 26)
  else if 48 ≤ n ∧ n ≤ 57 then some (n - 48 + 52)
  else if n = 43 then some 62
  else if n = 47 then some 63
  else none

/-- Strict base64 decoding of four-character groups with `=` padding. -/
def b64DecodeList : List Char → Option (List Nat)
  | [] => some []
  | c0 :: c1 :: c2 :: c3 :: rest =>
    match decChar c0, decChar c1 with
    | some n0, some n1 =>
      if c2 = '=' then
        if c3 = '=' ∧ rest = [] ∧ n1 % 16 = 0 then some [n0 * 4 + n1 / 16] else none
      else
        match decChar c2 with
        | some n2 =>
          if c3 = '=' then
            if rest = [] ∧ n2 % 4 = 0 then
              some [n0 * 4 + n1 / 16, n1 % 16 * 16 + n2 / 4]
            else none
          else
            match decChar c3 with
            | some n3 =>
              match b64DecodeList rest with
              | some tail =>
                  some ((n0 * 4 + n1 / 16) :: (n1 % 16 * 16 + n2 / 4) :: (n2 % 4 * 64 + n3) :: tail)
              | none => none
            | none => none
        | none => none
    | _, _ => none
  | _ => none

/-- Base64 decoding of a string. -/
def base64Decode (s : String) : Option (List Nat) := b64DecodeList s.data

/-! ### JSON serialization (model of Go `encoding/json` on the tagged struct) -/

/-- One escaped character of a JSON string, following Go `encoding/json`
default escaping (quotes, backslash, control characters, and the
HTML-sensitive characters as unicode escapes). -/
def escapeChar (c : Char) : List Char :=
  if c = '"' then ['\\', '"']
  else if c = '\\' then ['\\', '\\']
  else if c = '\n' then ['\\', 'n']
  else if c = '\r' then ['\\', 'r']
  else if c = '\t' then ['\\', 't']
  else if c = '<' then ['\\', 'u', '0', '0', '3', 'c']
  else if c = '>' then ['\\', 'u', '0', '0', '3', 'e']
  else if c = '&' then ['\\', 'u', '0', '0', '2', '6']
  else if c.toNat < 32 then
    ['\\', 'u', '0', '0',
     (if c.toNat / 16 < 10 then Char.ofNat (48 + c.toNat / 16) else Char.ofNat (87 + c.toNat / 16)),
     (if c.toNat % 16 < 10 then Char.ofNat (48 + c.toNat % 16) else Char.ofNat (87 + c.toNat % 16))]
  else [c]

/-- Escape every character of a list. -/
def escapeList : List Char → List Char
  | [] => []
  | c :: rest => escapeChar c ++ escapeList rest

/-- JSON string-body escaping. -/
def jsonEscape (s : String) : String := String.mk (escapeList s.data)

/-- A JSON string literal: escaped body surrounded by quotes. -/
def jsonQuote (s : String) : String := "\"" ++ jsonEscape s ++ "\""

/-- Render the fields of a JSON object (each value already rendered),
comma separated, in the given order. -/
def renderFields : List (String × String) → String
  | [] => ""
  | [f] => jsonQuote f.1 ++ ":" ++ f.2
  | f :: rest => jsonQuote f.1 ++ ":" ++ f.2 ++ "," ++ renderFields rest

/-- Render a JSON object from its ordered field list. -/
def renderObj (fields : List (String × String)) : String :=
  "\x7b" ++ renderFields fields ++ "\x7d"

/-- Insert a key/value pair into a key-sorted association list. -/
def insertByKey (p : String × String) : List (String × String) → List (String × String)
  | [] => [p]
  | q :: rest => if p.1 ≤ q.1 then p :: q :: rest else q :: insertByKey p rest

/-- Sort an association list by key, as Go `encoding/json` sorts map keys. -/
def sortByKey : List (String × String) → List (String × String)
  | [] => []
  | p :: rest => insertByKey p (sortByKey rest)

/-- Rendered JSON value of a Go `map[string]string`: `null` for a nil map,
otherwise an object with keys in sorted order. -/
def attrsValue : Option (List (String × String)) → String
  | none => "null"
  | some entries => renderObj ((sortByKey entries).map fun e => (e.1, jsonQuote e.2))

/-! ### Data model (from src/main.go) -/

/-- Config holds the configuration parsed from command-line arguments. -/
structure Config where
  Project : String
  Subscription : String
  URL : String
deriving DecidableEq, Repr

/-- A Go `time.Time` value: calendar fields in the location of the value,
the sub-second component, and the zone offset in minutes east of UTC. -/
structure GoTime where
  year : Nat
  month : Nat
  day : Nat
  hour : Nat
  minute : Nat
  second : Nat
  nanosecond : Nat
  offsetMinutes : Int
deriving DecidableEq, Repr

/-- A raw Pub/Sub message (`*pubsub.Message`): identifier, payload bytes,
attribute map (none models a nil map), optional ordering key, publish time. -/
structure Message where
  ID : String
  Data : List Nat
  Attributes : Option (List (String × String))
  OrderingKey : String
  PublishTime : GoTime
deriving DecidableEq, Repr

/-- The inner `message` struct of the transformed envelope. -/
structure PubSubMessageInner where
  Attributes : Option (List (String × String))
  Data : String
  MessageID : String
  OrderingKey : String
  PublishTime : String
deriving DecidableEq, Repr

/-- PubSubMessage represents the transformed Pub/Sub message structure. -/
structure PubSubMessage where
  Message : PubSubMessageInner
  Subscription : String
deriving DecidableEq, Repr

/-! ### RFC3339 formatting (model of `time.Time.Format(time.RFC3339)`) -/

/-- Decimal digits of a natural number, left-padded with zeros to width `w`. -/
def padNat (w : Nat) (n : Nat) : String :=
  let s := toString n
  String.mk (List.replicate (w - s.length) '0') ++ s

/-- The `Z07:00` part of the RFC3339 layout: `Z` for a zero offset,
otherwise a signed `hh:mm` offset. -/
def formatOffset (offsetMinutes : Int) : String :=
  if offsetMinutes = 0 then "Z"
  else if offsetMinutes < 0 then
    "-" ++ padNat 2 ((-offsetMinutes).toNat / 60) ++ ":" ++ padNat 2 ((-offsetMinutes).toNat % 60)
  else
    "+" ++ padNat 2 (offsetMinutes.toNat / 60) ++ ":" ++ padNat 2 (offsetMinutes.toNat % 60)

/-- `time.Time.Format(time.RFC3339)`: layout `2006-01-02T15:04:05Z07:00`,
whole seconds only — the nanosecond field is not consulted. -/
def formatRFC3339 (t : GoTime) : String :=
  padNat 4 t.year ++ "-" ++ padNat 2 t.month ++ "-" ++ padNat 2 t.day ++ "T" ++
  padNat 2 t.hour ++ ":" ++ padNat 2 t.minute ++ ":" ++ padNat 2 t.second ++
  formatOffset t.offsetMinutes

/-! ### transformMessage (src/main.go lines 83–92) -/

/-- transformMessage converts a Pub/Sub message into the desired JSON structure. -/
def transformMessage (msg : Message) (cfg : Config) : PubSubMessage :=
  { Message :=
      { Attributes := msg.Attributes
        Data := base64Encode msg.Data
        MessageID := msg.ID
        OrderingKey := msg.OrderingKey
        PublishTime := formatRFC3339 msg.PublishTime }
    Subscription := "projects/" ++ cfg.Project ++ "/subscriptions/" ++ cfg.Subscription }

/-! ### json.Marshal on PubSubMessage -/

/-- The ordered field list of the inner `message` JSON object, as
`encoding/json` produces it from the struct tags: declaration order,
`orderingKey` omitted when empty (its tag carries `omitempty`),
`attributes` always present (nil map marshals to `null`). -/
def messageFields (m : PubSubMessageInner) : List (String × String) :=
  [("attributes", attrsValue m.Attributes),
   ("data", jsonQuote m.Data),
   ("messageId", jsonQuote m.MessageID)]
  ++ (if m.OrderingKey = "" then [] else [("orderingKey", jsonQuote m.OrderingKey)])
  ++ [("publishTime", jsonQuote m.PublishTime)]

/-- `json.Marshal` of the transformed message struct. -/
def jsonMarshal (p : PubSubMessage) : String :=
  renderObj [("message", renderObj (messageFields p.Message)),
             ("subscription", jsonQuote p.Subscription)]

/-! ### sendPOST (src/main.go lines 95–123)

The HTTP transport is an external collaborator.  A run of `client.Do` is
modelled by a function from the URL and the POSTed body to its outcome:
either a transport-level failure or a response with a numeric status code
and a status line.  `json.Marshal` on this struct of strings and a string
map cannot fail, and `http.NewRequest` failures are transport-level
failures; both error paths of the Go function that precede the status
check are covered by the `transportFailure` outcome. -/

/-- Outcome of one HTTP POST attempt, as seen by `sendPOST`. -/
inductive HTTPOutcome where
  | transportFailure (e : String)
  | response (statusCode : Nat) (status : String)
deriving DecidableEq, Repr

/-- The delivery error returned by `sendPOST`, carrying the underlying
transport error or the non-2xx status. -/
inductive DeliveryError where
  | transportError (e : String)
  | httpStatus (statusCode : Nat) (status : String)
deriving DecidableEq, Repr

/-- sendPOST sends the transformed message to the specified URL via HTTP
POST: marshal the payload, perform the request, succeed exactly on a
status code in [200, 300), and return an error carrying the cause
otherwise. -/
def sendPOST (doRequest : String → String → HTTPOutcome) (url : String)
    (payload : PubSubMessage) : Except DeliveryError Unit :=
  let jsonData := jsonMarshal payload
  match doRequest url jsonData with
  | .transportFailure e => .error (.transportError e)
  | .response code status =>
      if 200 ≤ code ∧ code < 300 then .ok ()
      else .error (.httpStatus code status)

/-! ### consumeMessages (src/main.go lines 126–145) -/

/-- Observable per-message actions of the receive callback: the ack/nack
calls on the message handle and the error log line (which carries the
message identifier and the cause). -/
inductive Event where
  | ack (id : String)
  | nack (id : String)
  | logError (id : String) (err : DeliveryError)
deriving DecidableEq, Repr

/-- The receive callback of `consumeMessages` for one raw message:
transform, attempt delivery, and on failure log the error and nack,
otherwise ack. -/
def handleMessage (doRequest : String → String → HTTPOutcome) (cfg : Config)
    (msg : Message) : List Event :=
  let transformed := transformMessage msg cfg
  match sendPOST doRequest cfg.URL transformed with
  | .error e => [.logError msg.ID e, .nack msg.ID]
  | .ok () => [.ack msg.ID]

/-- How one run of `sub.Receive` terminates after the callback invocations:
it returns nil, returns `context.Canceled` (cancelled context), or fails
with some other error. -/
inductive ReceiveTermination where
  | nilError
  | canceled
  | failure (e : String)
deriving DecidableEq, Repr

/-- The loop-level error of `consumeMessages`, wrapping a receive failure. -/
inductive LoopError where
  | receiveError (e : String)
deriving DecidableEq, Repr

/-- The events of a whole receive run: the callback runs once per message. -/
def runEvents (doRequest : String → String → HTTPOutcome) (cfg : Config) :
    List Message → List Event
  | [] => []
  | msg :: rest => handleMessage doRequest cfg msg ++ runEvents doRequest cfg rest

/-- consumeMessages continuously receives and processes Pub/Sub messages.
A run of `sub.Receive` is modelled by the list of raw messages handed to
the callback and the termination it ends with.  The result pairs the
observable events with the returned value: `context.Canceled` (and nil)
yield nil, any other receive error is wrapped into a loop error. -/
def consumeMessages (doRequest : String → String → HTTPOutcome) (cfg : Config)
    (msgs : List Message) (term : ReceiveTermination) :
    List Event × Except LoopError Unit :=
  let events := runEvents doRequest cfg msgs
  match term with
  | .nilError => (events, .ok ())
  | .canceled => (events, .ok ())
  | .failure e => (events, .error (.receiveError e))

/-- Is an event an ack or a nack call on the message handle? -/
def isAckNack : Event → Bool
  | .ack _ => true
  | .nack _ => true
  | .logError _ _ => false

/-! ### Concrete fixtures used by witnesses and the end-to-end example -/

/-- A transport that always answers 200 OK. -/
def reqOK : String → String → HTTPOutcome := fun _ _ => .response 200 "200 OK"

/-- A transport that always answers 500. -/
def req500 : String → String → HTTPOutcome := fun _ _ => .response 500 "500 Internal Server Error"

/-- The configuration of the end-to-end example. -/
def cfgW : Config := { Project := "p", Subscription := "s", URL := "http://x/y" }

/-- The publish time of the end-to-end example: 2024-01-01T00:00:00Z. -/
def timeW : GoTime :=
  { year := 2024, month := 1, day := 1, hour := 0, minute := 0, second := 0,
    nanosecond := 0, offsetMinutes := 0 }

/-- The raw message of the end-to-end example: id m1, payload "hello",
one attribute, no ordering key. -/
def msgW : Message :=
  { ID := "m1", Data := [104, 101, 108, 108, 111],
    Attributes := some [("k", "v")], OrderingKey := "", PublishTime := timeW }

/-- A raw message with a nil attribute map and an ordering key. -/
def msgNil : Message :=
  { ID := "m2", Data := [], Attributes := none, OrderingKey := "ok1", PublishTime := timeW }

/-- The publish time of the example shifted by 999999999 nanoseconds. -/
def timeW2 : GoTime := { timeW with nanosecond := 999999999 }

/-- The example message with a publish time differing only below a second. -/
def msgW2 : Message := { msgW with PublishTime := timeW2 }

/-! ## Theorems -/

/-- Decoding inverts the alphabet map on 6-bit values. -/
theorem decChar_encChar : ∀ n, n < 64 → decChar (encChar n) = some n := by decide

/-- Alphabet characters are never the padding character. -/
theorem encChar_ne_pad : ∀ n, n < 64 → encChar n ≠ '=' := by decide

/-- Strict base64 decoding inverts encoding on byte lists. -/
theorem b64_roundtrip : ∀ (bytes : List Nat), (∀ b ∈ bytes, b < 256) →
    b64DecodeList (b64EncodeList bytes) = some bytes
  | [] => fun _ => rfl
  | [a] => fun h => by
      have ha : a < 256 := h a (by simp)
      have d0 : decChar (encChar (a / 4)) = some (a / 4) := decChar_encChar _ (by omega)
      have d1 : decChar (encChar (a % 4 * 16)) = some (a % 4 * 16) := decChar_encChar _ (by omega)
      simp only [b64EncodeList, b64DecodeList, d0, d1]
      rw [if_pos trivial, if_pos ⟨trivial, trivial, by omega⟩]
      simp only [Option.some.injEq, List.cons.injEq, and_true]
      omega
  | [a, b] => fun h => by
      have ha : a < 256 := h a (by simp)
      have hb : b < 256 := h b (by simp)
      have d0 : decChar (encChar (a / 4)) = some (a / 4) := decChar_encChar _ (by omega)
      have d1 : decChar (encChar (a % 4 * 16 + b / 16)) = some (a % 4 * 16 + b / 16) :=
        decChar_encChar _ (by omega)
      have d2 : decChar (encChar (b % 16 * 4)) = some (b % 16 * 4) := decChar_encChar _ (by omega)
      have n2 : encChar (b % 16 * 4) ≠ '=' := encChar_ne_pad _ (by omega)
      simp only [b64EncodeList, b64DecodeList, d0, d1, d2]
      rw [if_neg n2, if_pos trivial, if_pos ⟨trivial, by omega⟩]
      simp only [Option.some.injEq, List.cons.injEq, and_true]
      omega
  | a :: b :: c :: rest => fun h => by
      have ha : a < 256 := h a (by simp)
      have hb : b < 256 := h b (by simp)
      have hc : c < 256 := h c (by simp)
      have ih := b64_roundtrip rest (fun x hx => h x (by simp [hx]))
      have d0 : decChar (encChar (a / 4)) = some (a / 4) := decChar_encChar _ (by omega)
      have d1 : decChar (encChar (a % 4 * 16 + b / 16)) = some (a % 4 * 16 + b / 16) :=
        decChar_encChar _ (by omega)
      have d2 : decChar (encChar (b % 16 * 4 + c / 64)) = some (b % 16 * 4 + c / 64) :=
        decChar_encChar _ (by omega)
      have d3 : decChar (encChar (c % 64)) = some (c % 64) := decChar_encChar _ (by omega)
      have n2 : encChar (b % 16 * 4 + c / 64) ≠ '=' := encChar_ne_pad _ (by omega)
      have n3 : encChar (c % 64) ≠ '=' := encChar_ne_pad _ (by omega)
      simp only [b64EncodeList, b64DecodeList, d0, d1, d2, d3, ih]
      rw [if_neg n2, if_neg n3]
      simp only [Option.some.injEq, List.cons.injEq, and_true]
      refine ⟨by omega, by omega, by omega⟩

/-- C2: for every raw message and configuration, the envelope's
`message.data` equals the base64 encoding of the payload bytes, and
base64-decoding that field returns exactly the payload bytes. -/
theorem transform_data_base64_roundtrip (msg : Message) (cfg : Config)
    (h : ∀ b ∈ msg.Data, b < 256) :
    (transformMessage msg cfg).Message.Data = base64Encode msg.Data ∧
    base64Decode ((transformMessage msg cfg).Message.Data) = some msg.Data :=
  ⟨rfl, b64_roundtrip msg.Data h⟩

/-- Witness for C2 at the concrete "hello" message. -/
theorem transform_data_base64_roundtrip_witness :
    (∀ b ∈ msgW.Data, b < 256) ∧
    ((transformMessage msgW cfgW).Message.Data = base64Encode msgW.Data ∧
     base64Decode ((transformMessage msgW cfgW).Message.Data) = some msgW.Data) :=
  ⟨by decide, transform_data_base64_roundtrip msgW cfgW (by decide)⟩

/-- The events of a run do not depend on how the receive call terminates. -/
theorem consume_fst (doRequest : String → String → HTTPOutcome) (cfg : Config)
    (msgs : List Message) (term : ReceiveTermination) :
    (consumeMessages doRequest cfg msgs term).1 = runEvents doRequest cfg msgs := by
  cases term <;> rfl

/-- The callback issues exactly one ack or nack call per message. -/
theorem handle_one_acknack (doRequest : String → String → HTTPOutcome) (cfg : Config)
    (msg : Message) : (handleMessage doRequest cfg msg).countP isAckNack = 1 := by
  cases hs : sendPOST doRequest cfg.URL (transformMessage msg cfg) with
  | error e => simp [handleMessage, hs, List.countP_cons, isAckNack]
  | ok v => cases v; simp [handleMessage, hs, List.countP_cons, isAckNack]

/-- C1: the loop issues exactly one ack/nack per received message — the
total across a run equals the number of received messages — and the choice
follows the delivery outcome: success is acked, error is logged and
nacked. -/
theorem ack_nack_exactly_one (doRequest : String → String → HTTPOutcome) (cfg : Config)
    (msgs : List Message) (term : ReceiveTermination) :
    ((consumeMessages doRequest cfg msgs term).1.countP isAckNack = msgs.length) ∧
    ∀ msg : Message,
      (sendPOST doRequest cfg.URL (transformMessage msg cfg) = .ok () →
        handleMessage doRequest cfg msg = [Event.ack msg.ID]) ∧
      (∀ e, sendPOST doRequest cfg.URL (transformMessage msg cfg) = .error e →
        handleMessage doRequest cfg msg = [Event.logError msg.ID e, Event.nack msg.ID]) := by
  constructor
  · rw [consume_fst]
    induction msgs with
    | nil => rfl
    | cons m rest ih =>
        simp [runEvents, List.countP_append, handle_one_acknack, ih]
        omega
  · intro msg
    constructor
    · intro hok
      simp [handleMessage, hok]
    · intro e he
      simp [handleMessage, he]

/-- Witness for C1: a one-message run against a 200 transport acks it. -/
theorem ack_nack_exactly_one_witness :
    ((consumeMessages reqOK cfgW [msgW] ReceiveTermination.canceled).1.countP isAckNack = 1) ∧
    handleMessage reqOK cfgW msgW = [Event.ack "m1"] :=
  ⟨(ack_nack_exactly_one reqOK cfgW [msgW] ReceiveTermination.canceled).1,
   ((ack_nack_exactly_one reqOK cfgW [msgW] ReceiveTermination.canceled).2 msgW).1 (by rfl)⟩

/-- C3: delivery succeeds exactly when the HTTP response status lies in
[200, 300); a transport failure or an out-of-range status yields the
delivery error carrying the underlying cause. -/
theorem sendPOST_success_iff (doRequest : String → String → HTTPOutcome) (url : String)
    (payload : PubSubMessage) :
    (sendPOST doRequest url payload = .ok () ↔
      ∃ code status, doRequest url (jsonMarshal payload) = .response code status ∧
        200 ≤ code ∧ code < 300) ∧
    (∀ e, doRequest url (jsonMarshal payload) = .transportFailure e →
      sendPOST doRequest url payload = .error (.transportError e)) ∧
    (∀ code status, doRequest url (jsonMarshal payload) = .response code status →
      ¬(200 ≤ code ∧ code < 300) →
      sendPOST doRequest url payload = .error (.httpStatus code status)) := by
  refine ⟨⟨?_, ?_⟩, ?_, ?_⟩
  · intro h
    cases hr : doRequest url (jsonMarshal payload) with
    | transportFailure e => simp [sendPOST, hr] at h
    | response code status =>
        refine ⟨code, status, rfl, ?_⟩
        by_contra hc
        simp [sendPOST, hr, hc] at h
  · rintro ⟨code, status, hr, h1, h2⟩
    simp [sendPOST, hr, h1, h2]
  · intro e hr
    simp [sendPOST, hr]
  · intro code status hr hc
    simp [sendPOST, hr, hc]

/-- Witness for C3: a 500 response yields the delivery error with that status. -/
theorem sendPOST_success_iff_witness :
    sendPOST req500 cfgW.URL (transformMessage msgW cfgW) =
      .error (.httpStatus 500 "500 Internal Server Error") :=
  (sendPOST_success_iff req500 cfgW.URL (transformMessage msgW cfgW)).2.2
    500 "500 Internal Server Error" (by rfl) (by decide)

/-- C4: a receive run that ends with the cancellation signal makes the loop
return success; with no messages it returns no error and no events at all;
any other receive error is surfaced as a loop error. -/
theorem consume_termination (doRequest : String → String → HTTPOutcome) (cfg : Config)
    (msgs : List Message) :
    ((consumeMessages doRequest cfg msgs ReceiveTermination.canceled).2 = .ok ()) ∧
    consumeMessages doRequest cfg [] ReceiveTermination.canceled = ([], .ok ()) ∧
    ∀ e, (consumeMessages doRequest cfg msgs (ReceiveTermination.failure e)).2 =
      .error (LoopError.receiveError e) :=
  ⟨rfl, rfl, fun _ => rfl⟩

/-- C5: a message whose delivery fails is logged with its identifier and
the cause and nacked, the events of the rest of the run follow unchanged,
and the loop-level result is the same as for the run without it. -/
theorem per_message_failure_recovered (doRequest : String → String → HTTPOutcome)
    (cfg : Config) (msg : Message) (rest : List Message) (term : ReceiveTermination)
    (e : DeliveryError)
    (h : sendPOST doRequest cfg.URL (transformMessage msg cfg) = .error e) :
    (consumeMessages doRequest cfg (msg :: rest) term).1 =
      Event.logError msg.ID e :: Event.nack msg.ID ::
        (consumeMessages doRequest cfg rest term).1 ∧
    (consumeMessages doRequest cfg (msg :: rest) term).2 =
      (consumeMessages doRequest cfg rest term).2 := by
  constructor
  · rw [consume_fst, consume_fst]
    simp [runEvents, handleMessage, h]
  · cases term <;> rfl

/-- Witness for C5: against a 500 transport the first message is logged
and nacked and the run continues. -/
theorem per_message_failure_recovered_witness :
    (consumeMessages req500 cfgW [msgW] ReceiveTermination.canceled).1 =
      Event.logError "m1" (.httpStatus 500 "500 Internal Server Error") :: Event.nack "m1" ::
        (consumeMessages req500 cfgW [] ReceiveTermination.canceled).1 ∧
    (consumeMessages req500 cfgW [msgW] ReceiveTermination.canceled).2 =
      (consumeMessages req500 cfgW [] ReceiveTermination.canceled).2 :=
  per_message_failure_recovered req500 cfgW msgW [] ReceiveTermination.canceled
    (.httpStatus 500 "500 Internal Server Error") (by rfl)

/-- C6: the transformation copies the attribute mapping verbatim, formats
the publish timestamp with the RFC3339 layout, and the serialized envelope
carries the orderingKey field exactly when the ordering key is non-empty,
with the input value. -/
theorem transform_verbatim_fields (msg : Message) (cfg : Config) :
    (transformMessage msg cfg).Message.Attributes = msg.Attributes ∧
    (transformMessage msg cfg).Message.PublishTime = formatRFC3339 msg.PublishTime ∧
    (msg.OrderingKey = "" →
      (messageFields (transformMessage msg cfg).Message).map Prod.fst =
        ["attributes", "data", "messageId", "publishTime"]) ∧
    (msg.OrderingKey ≠ "" →
      (messageFields (transformMessage msg cfg).Message).map Prod.fst =
        ["attributes", "data", "messageId", "orderingKey", "publishTime"] ∧
      ("orderingKey", jsonQuote msg.OrderingKey) ∈
        messageFields (transformMessage msg cfg).Message) := by
  refine ⟨rfl, rfl, ?_, ?_⟩
  · intro h
    simp [messageFields, transformMessage, h]
  · intro h
    constructor
    · simp [messageFields, transformMessage, h]
    · simp [messageFields, transformMessage, h]

/-- Witness for C6 at the example messages with and without ordering key. -/
theorem transform_verbatim_fields_witness :
    ((messageFields (transformMessage msgW cfgW).Message).map Prod.fst =
      ["attributes", "data", "messageId", "publishTime"]) ∧
    ("orderingKey", jsonQuote "ok1") ∈ messageFields (transformMessage msgNil cfgW).Message :=
  ⟨(transform_verbatim_fields msgW cfgW).2.2.1 (by rfl),
   ((transform_verbatim_fields msgNil cfgW).2.2.2 (by decide)).2⟩

/-- C8: the end-to-end example serializes to exactly the expected body,
with the orderingKey field absent. -/
theorem end_to_end_example :
    jsonMarshal (transformMessage msgW cfgW) =
      "\x7b\"message\":\x7b\"attributes\":\x7b\"k\":\"v\"\x7d,\"data\":\"aGVsbG8=\",\"messageId\":\"m1\",\"publishTime\":\"2024-01-01T00:00:00Z\"\x7d,\"subscription\":\"projects/p/subscriptions/s\"\x7d" := by
  rfl

/-- C9: the publishTime string has whole-second precision: two messages
whose publish times agree on everything except the sub-second component
produce the same publishTime string. -/
theorem publishTime_whole_seconds (m1 m2 : Message) (cfg1 cfg2 : Config)
    (h1 : m1.PublishTime.year = m2.PublishTime.year)
    (h2 : m1.PublishTime.month = m2.PublishTime.month)
    (h3 : m1.PublishTime.day = m2.PublishTime.day)
    (h4 : m1.PublishTime.hour = m2.PublishTime.hour)
    (h5 : m1.PublishTime.minute = m2.PublishTime.minute)
    (h6 : m1.PublishTime.second = m2.PublishTime.second)
    (h7 : m1.PublishTime.offsetMinutes = m2.PublishTime.offsetMinutes) :
    (transformMessage m1 cfg1).Message.PublishTime =
      (transformMessage m2 cfg2).Message.PublishTime := by
  show formatRFC3339 m1.PublishTime = formatRFC3339 m2.PublishTime
  rw [formatRFC3339, formatRFC3339, h1, h2, h3, h4, h5, h6, h7]

/-- Witness for C9: a publish time shifted by 999999999ns formats identically. -/
theorem publishTime_whole_seconds_witness :
    (transformMessage msgW cfgW).Message.PublishTime =
      (transformMessage msgW2 cfgW).Message.PublishTime :=
  publishTime_whole_seconds msgW msgW2 cfgW cfgW rfl rfl rfl rfl rfl rfl rfl

/-- C10: the attributes field appears exactly once in every serialized
envelope, and a nil attribute map serializes it as null (shown in full on
a concrete nil-map message) rather than as an empty object. -/
theorem attributes_field_always_present (msg : Message) (cfg : Config) :
    (((messageFields (transformMessage msg cfg).Message).map Prod.fst).count "attributes" = 1) ∧
    (msg.Attributes = none →
      ("attributes", "null") ∈ messageFields (transformMessage msg cfg).Message) ∧
    jsonMarshal (transformMessage msgNil cfgW) =
      "\x7b\"message\":\x7b\"attributes\":null,\"data\":\"\",\"messageId\":\"m2\",\"orderingKey\":\"ok1\",\"publishTime\":\"2024-01-01T00:00:00Z\"\x7d,\"subscription\":\"projects/p/subscriptions/s\"\x7d" := by
  refine ⟨?_, ?_, by rfl⟩
  · by_cases h : msg.OrderingKey = "" <;>
      simp [messageFields, transformMessage, h]
  · intro hnone
    simp [messageFields, transformMessage, hnone, attrsValue]

/-- Witness for C10 at the concrete nil-attribute message. -/
theorem attributes_field_always_present_witness :
    ("attributes", "null") ∈ messageFields (transformMessage msgNil cfgW).Message :=
  (attributes_field_always_present msgNil cfgW).2.1 (by rfl)

/-! ### C7: the subscription field -/

/-- Splitting a list at a separator character that occurs in neither
prefix is unambiguous. -/
theorem noslash_split : ∀ (as cs rs ts : List Char), '/' ∉ as → '/' ∉ cs →
    as ++ '/' :: rs = cs ++ '/' :: ts → as = cs ∧ rs = ts := by
  intro as
  induction as with
  | nil =>
      intro cs rs ts _ hc h
      cases cs with
      | nil => simpa using h
      | cons c cs =>
          simp only [List.nil_append, List.cons_append, List.cons.injEq] at h
          obtain ⟨h1, _⟩ := h
          subst h1
          exact absurd (List.mem_cons_self _ _) hc
  | cons a as ih =>
      intro cs rs ts ha hc h
      cases cs with
      | nil =>
          simp only [List.nil_append, List.cons_append, List.cons.injEq] at h
          obtain ⟨h1, _⟩ := h
          subst h1
          exact absurd (List.mem_cons_self _ _) ha
      | cons c cs =>
          simp only [List.cons_append, List.cons.injEq] at h
          obtain ⟨h1, h2⟩ := h
          have hha : '/' ∉ as := fun hm => ha (List.mem_cons_of_mem a hm)
          have hhc : '/' ∉ cs := fun hm => hc (List.mem_cons_of_mem c hm)
          obtain ⟨e1, e2⟩ := ih cs rs ts hha hhc h2
          exact ⟨by rw [h1, e1], e2⟩

/-- The characters of an appended string. -/
theorem strdata_append (a b : String) : (a ++ b).data = a.data ++ b.data := rfl

/-- Strings with equal character lists are equal. -/
theorem str_ext (a b : String) (h : a.data = b.data) : a = b := congrArg String.mk h

/-- The fully qualified subscription name determines slash-free project
and subscription identifiers. -/
theorem sub_field_inj (p1 s1 p2 s2 : String)
    (hp1 : '/' ∉ p1.data) (hp2 : '/' ∉ p2.data)
    (h : "projects/" ++ p1 ++ "/subscriptions/" ++ s1 =
         "projects/" ++ p2 ++ "/subscriptions/" ++ s2) :
    p1 = p2 ∧ s1 = s2 := by
  have hd := congrArg String.data h
  simp only [strdata_append, List.append_assoc] at hd
  have hd2 := List.append_cancel_left hd
  simp only [List.cons_append, List.nil_append] at hd2
  obtain ⟨e1, e2⟩ := noslash_split _ _ _ _ hp1 hp2 hd2
  simp only [List.cons.injEq, true_and] at e2
  exact ⟨str_ext _ _ e1, str_ext _ _ e2⟩

/-- C7 as stated is false: two configurations with distinct
(project, subscription) pairs whose identifiers contain a slash produce
identical subscription fields. -/
theorem subscription_collision :
    ((("a/subscriptions/b", "c") : String × String) ≠ ("a", "b/subscriptions/c")) ∧
    (transformMessage msgW
        { Project := "a/subscriptions/b", Subscription := "c", URL := "u" }).Subscription =
      (transformMessage msgW
        { Project := "a", Subscription := "b/subscriptions/c", URL := "u" }).Subscription :=
  ⟨by decide, by rfl⟩

/-- C7 amended: the subscription field always matches the pattern
projects/{project}/subscriptions/{subscription}, and for configurations
whose project and subscription identifiers are free of slashes, distinct
(project, subscription) pairs produce distinct subscription fields. -/
theorem subscription_pattern_injective (c1 c2 : Config) (m1 m2 : Message)
    (hp1 : '/' ∉ c1.Project.data) (hp2 : '/' ∉ c2.Project.data)
    (hne : (c1.Project, c1.Subscription) ≠ (c2.Project, c2.Subscription)) :
    ((transformMessage m1 c1).Subscription =
      "projects/" ++ c1.Project ++ "/subscriptions/" ++ c1.Subscription) ∧
    (transformMessage m1 c1).Subscription ≠ (transformMessage m2 c2).Subscription := by
  refine ⟨rfl, fun h => ?_⟩
  obtain ⟨e1, e2⟩ := sub_field_inj c1.Project c1.Subscription c2.Project c2.Subscription hp1 hp2 h
  exact hne (by rw [e1, e2])

/-- Witness for C7 amended: configurations p/s and q/s give distinct fields. -/
theorem subscription_pattern_injective_witness :
    ((transformMessage msgW cfgW).Subscription = "projects/p/subscriptions/s") ∧
    (transformMessage msgW cfgW).Subscription ≠
      (transformMessage msgW { Project := "q", Subscription := "s", URL := "u" }).Subscription :=
  subscription_pattern_injective cfgW { Project := "q", Subscription := "s", URL := "u" }
    msgW msgW (by decide) (by decide) (by decide)

end Forwarder
